import Mathlib

/-!
Verification of the SinProject time-tracking backend.

Shallow embedding of the timer lifecycle (routes/timer.js, models/TimeEntry.js),
the daily-login tracker (models/DailyLoginTracker.js, routes/admin.js) and the
authentication lockout logic (models/User.js, routes/auth.js).

Timestamps are milliseconds since the Unix epoch (JS Date.getTime()), modelled
as Int.  Database rows live in lists; a store field nextId supplies fresh
primary keys (the source uses UUIDs; only freshness matters here).
-/

namespace SinProject

/-- Milliseconds since the Unix epoch, as produced by JS Date.getTime(). -/
abbrev Millis := Int

/-- JS `a || b` on optional strings: keep the old value when the new one is
absent or empty (the empty string is falsy in JS). -/
def jsStringOr (v : Option String) (old : Option String) : Option String :=
  match v with
  | some s => if s = "" then old else some s
  | none => old

/-- Math.ceil(a / b) for integer a and positive integer b, as used by the
lockout-minutes computation in routes/auth.js. -/
def jsCeilDiv (a b : Int) : Int := -((-a).fdiv b)

/-- A row of work_projects (models/WorkProject.js); only the fields the timer
routes read. -/
structure WorkProject where
  id : Nat
  name : String
deriving DecidableEq

/-- A row of activities (models/Activity.js); only the fields the timer routes
read. -/
structure Activity where
  id : Nat
  name : String
deriving DecidableEq

/-- A row of time_entries (models/TimeEntry.js). `endTime = none` is the
active-timer marker.  The legacy status enum is not read by any route in
routes/timer.js and is omitted. -/
structure TimeEntry where
  id : Nat
  userId : Nat
  workProjectId : Nat
  activityId : Nat
  taskName : String
  description : Option String
  startTime : Millis
  endTime : Option Millis
  durationMinutes : Int
  isManual : Bool
deriving DecidableEq

/-- Sequelize model validation of TimeEntry (models/TimeEntry.js): taskName
notEmpty and len [2,300], endTime strictly after startTime when present
(isAfterStart), durationMinutes min 0. -/
def timeEntryValid (e : TimeEntry) : Bool :=
  decide (2 ≤ e.taskName.length) && decide (e.taskName.length ≤ 300) &&
  (match e.endTime with
   | some et => decide (e.startTime < et)
   | none => true) &&
  decide (0 ≤ e.durationMinutes)

/-- The beforeSave hook of TimeEntry (models/TimeEntry.js lines 82-92):
when both timestamps are present, durationMinutes := Math.floor(diffMs / 60000). -/
def timeEntryBeforeSave (e : TimeEntry) : TimeEntry :=
  match e.endTime with
  | some et => { e with durationMinutes := (et - e.startTime).fdiv 60000 }
  | none => e

/-- Saving a TimeEntry: validation first (Sequelize validates before the
beforeSave hook runs), then the hook; an invalid row is rejected and nothing
is written. -/
def trySaveTimeEntry (e : TimeEntry) : Option TimeEntry :=
  if timeEntryValid e then some (timeEntryBeforeSave e) else none

/-- The persistent state touched by routes/timer.js. -/
structure TimerStore where
  projects : List WorkProject
  activities : List Activity
  entries : List TimeEntry
  nextId : Nat
deriving DecidableEq

/-- The where-clause { userId, endTime: null } of the active-timer queries. -/
def isOpenFor (u : Nat) (e : TimeEntry) : Bool :=
  e.userId == u && e.endTime == none

/-- TimeEntry.findOne({ where: { userId, endTime: null } }). -/
def findActiveTimer (s : TimerStore) (userId : Nat) : Option TimeEntry :=
  s.entries.find? (isOpenFor userId)

/-- All open entries of a user; the one-active-timer invariant bounds its
length. -/
def openEntries (s : TimerStore) (u : Nat) : List TimeEntry :=
  s.entries.filter (isOpenFor u)

/-- WorkProject.findByPk. -/
def findProject (s : TimerStore) (pid : Nat) : Option WorkProject :=
  s.projects.find? (fun p => p.id == pid)

/-- Activity.findByPk. -/
def findActivity (s : TimerStore) (aid : Nat) : Option Activity :=
  s.activities.find? (fun a => a.id == aid)

/-- TimeEntry.findOne({ where: { id, userId } }). -/
def findEntryByIdUser (s : TimerStore) (id userId : Nat) : Option TimeEntry :=
  s.entries.find? (fun e => e.id == id && e.userId == userId)

/-- Persisting an updated row: replace the row with the same primary key. -/
def replaceEntry (s : TimerStore) (e : TimeEntry) : TimerStore :=
  { s with entries := s.entries.map (fun x => if x.id == e.id then e else x) }

/-- timeEntry.destroy(): remove the row by primary key. -/
def removeEntry (s : TimerStore) (id : Nat) : TimerStore :=
  { s with entries := s.entries.filter (fun x => !(x.id == id)) }

/-- Outcome of POST /api/timer/start (routes/timer.js lines 29-125).
conflictActiveTimer is the 400 business-rule (ConflictError) response,
internalError models a crash surfaced as 500 (null workProject dereference or
a model-validation rejection inside create). -/
inductive StartResult where
  | conflictActiveTimer (message : String) (activeTimer : TimeEntry)
  | workProjectNotFound
  | activityNotFound
  | internalError
  | started (timeEntry : TimeEntry)
deriving DecidableEq

/-- The POST /api/timer/start handler (routes/timer.js lines 29-125): reject
with a ConflictError naming the running project when an open entry exists,
404 on unknown project or activity, otherwise create an entry with
startTime = now and endTime = null. -/
def startHandler (s : TimerStore) (userId workProjectId activityId : Nat)
    (taskName : String) (description : Option String) (now : Millis) :
    StartResult × TimerStore :=
  match findActiveTimer s userId with
  | some active =>
    match findProject s active.workProjectId with
    | some p =>
      (.conflictActiveTimer
        ("You already have an active timer running for project: " ++ p.name)
        active, s)
    | none => (.internalError, s)
  | none =>
    match findProject s workProjectId with
    | none => (.workProjectNotFound, s)
    | some _ =>
      match findActivity s activityId with
      | none => (.activityNotFound, s)
      | some _ =>
        match trySaveTimeEntry
            { id := s.nextId, userId := userId, workProjectId := workProjectId,
              activityId := activityId, taskName := taskName,
              description := description, startTime := now, endTime := none,
              durationMinutes := 0, isManual := false } with
        | some e =>
          (.started e,
           { s with entries := s.entries ++ [e], nextId := s.nextId + 1 })
        | none => (.internalError, s)

/-- Outcome of PUT /api/timer/stop (routes/timer.js lines 230-275).
noActiveTimer is the 400 ConflictError branch. -/
inductive StopResult where
  | noActiveTimer
  | internalError
  | stopped (id : Nat) (endTime : Millis)
deriving DecidableEq

/-- The PUT /api/timer/stop handler (routes/timer.js lines 230-275): 400 when
no open entry exists, otherwise set endTime := now (the beforeSave hook
recomputes the duration) and optionally overwrite the description. -/
def stopHandler (s : TimerStore) (userId : Nat) (description : Option String)
    (now : Millis) : StopResult × TimerStore :=
  match findActiveTimer s userId with
  | none => (.noActiveTimer, s)
  | some active =>
    match trySaveTimeEntry
        ({ active with
           endTime := some now,
           description := jsStringOr description active.description }) with
    | some e => (.stopped e.id now, replaceEntry s e)
    | none => (.internalError, s)

/-- Request body of POST /api/timer/entries after JSON parsing. -/
structure ManualEntryBody where
  workProjectId : Nat
  activityId : Nat
  taskName : String
  description : Option String
  startTime : Millis
  endTime : Millis
deriving DecidableEq

/-- The Joi schema createManualTimeEntry (middleware/validation.js lines
70-85): taskName trimmed to length [2,300], description at most 1000 chars,
endTime strictly greater than startTime. -/
def joiValidManual (b : ManualEntryBody) : Bool :=
  decide (2 ≤ b.taskName.trim.length) && decide (b.taskName.trim.length ≤ 300) &&
  (match b.description with
   | some d => decide (d.trim.length ≤ 1000)
   | none => true) &&
  decide (b.startTime < b.endTime)

/-- Joi value conversion: trimmed strings replace the originals. -/
def joiNormalizeManual (b : ManualEntryBody) : ManualEntryBody :=
  { b with taskName := b.taskName.trim,
           description := b.description.map String.trim }

/-- Outcome of POST /api/timer/entries (routes/timer.js lines 132-223).
validationFailed is the Joi 400; endBeforeStart is the in-handler 400. -/
inductive ManualResult where
  | validationFailed
  | workProjectNotFound
  | activityNotFound
  | endBeforeStart
  | internalError
  | created (timeEntry : TimeEntry)
deriving DecidableEq

/-- The POST /api/timer/entries handler body (routes/timer.js lines 132-223):
resolve project and activity, reject end <= start, create a completed manual
entry. -/
def createManualHandler (s : TimerStore) (userId : Nat) (b : ManualEntryBody) :
    ManualResult × TimerStore :=
  match findProject s b.workProjectId with
  | none => (.workProjectNotFound, s)
  | some _ =>
    match findActivity s b.activityId with
    | none => (.activityNotFound, s)
    | some _ =>
      if b.endTime ≤ b.startTime then (.endBeforeStart, s)
      else
        match trySaveTimeEntry
            { id := s.nextId, userId := userId,
              workProjectId := b.workProjectId, activityId := b.activityId,
              taskName := b.taskName, description := b.description,
              startTime := b.startTime, endTime := some b.endTime,
              durationMinutes := 0, isManual := true } with
        | some e =>
          (.created e,
           { s with entries := s.entries ++ [e], nextId := s.nextId + 1 })
        | none => (.internalError, s)

/-- The full POST /api/timer/entries pipeline: the validate middleware rejects
the request before the handler runs. -/
def createManualPipeline (s : TimerStore) (userId : Nat) (b : ManualEntryBody) :
    ManualResult × TimerStore :=
  if joiValidManual b then createManualHandler s userId (joiNormalizeManual b)
  else (.validationFailed, s)

/-- Request body of PUT /api/timer/entries/:id. -/
structure UpdateEntryBody where
  taskName : Option String
  description : Option String
  startTime : Option Millis
  endTime : Option Millis
deriving DecidableEq

/-- The Joi schema updateTimeEntry (middleware/validation.js lines 87-104):
at least one field, bounds on strings, and the custom check that endTime is
after startTime when both appear in the patch. -/
def joiValidUpdate (b : UpdateEntryBody) : Bool :=
  (b.taskName.isSome || b.description.isSome || b.startTime.isSome ||
    b.endTime.isSome) &&
  (match b.taskName with
   | some t => decide (2 ≤ t.trim.length) && decide (t.trim.length ≤ 300)
   | none => true) &&
  (match b.description with
   | some d => decide (d.trim.length ≤ 1000)
   | none => true) &&
  (match b.startTime, b.endTime with
   | some st, some et => decide (st < et)
   | _, _ => true)

/-- timeEntry.update(req.body): merge the present (Joi-trimmed) fields. -/
def applyPatch (e : TimeEntry) (b : UpdateEntryBody) : TimeEntry :=
  { e with
    taskName := (b.taskName.map String.trim).getD e.taskName,
    description := match b.description.map String.trim with
      | some d => some d
      | none => e.description,
    startTime := b.startTime.getD e.startTime,
    endTime := match b.endTime with
      | some et => some et
      | none => e.endTime }

/-- Outcome of PUT /api/timer/entries/:id (routes/timer.js lines 494-558).
onlyCompletedEditable is the 400 ConflictError guard. -/
inductive UpdateResult where
  | validationFailed
  | entryNotFound
  | onlyCompletedEditable
  | internalError
  | updated (timeEntry : TimeEntry)
deriving DecidableEq

/-- The PUT /api/timer/entries/:id handler body (routes/timer.js lines
494-558): ownership scope, the completed-only guard, then merge and save. -/
def updateEntryHandler (s : TimerStore) (entryId userId : Nat)
    (b : UpdateEntryBody) : UpdateResult × TimerStore :=
  match findEntryByIdUser s entryId userId with
  | none => (.entryNotFound, s)
  | some e =>
    if e.endTime = none then (.onlyCompletedEditable, s)
    else
      match trySaveTimeEntry (applyPatch e b) with
      | some e2 => (.updated e2, replaceEntry s e2)
      | none => (.internalError, s)

/-- The full PUT /api/timer/entries/:id pipeline with the Joi middleware. -/
def updateEntryPipeline (s : TimerStore) (entryId userId : Nat)
    (b : UpdateEntryBody) : UpdateResult × TimerStore :=
  if joiValidUpdate b then updateEntryHandler s entryId userId b
  else (.validationFailed, s)

/-- Outcome of DELETE /api/timer/entries/:id (routes/timer.js lines 565-609).
onlyCompletedDeletable is the 400 ConflictError guard. -/
inductive DeleteResult where
  | entryNotFound
  | onlyCompletedDeletable
  | deleted
deriving DecidableEq

/-- The DELETE /api/timer/entries/:id handler (routes/timer.js lines 565-609):
ownership scope, the completed-only guard, then destroy. -/
def deleteEntryHandler (s : TimerStore) (entryId userId : Nat) :
    DeleteResult × TimerStore :=
  match findEntryByIdUser s entryId userId with
  | none => (.entryNotFound, s)
  | some e =>
    if e.endTime = none then (.onlyCompletedDeletable, s)
    else (.deleted, removeEntry s e.id)

/-- One request against the timer routes.  setCatalog stands for the admin
CRUD on projects and activities, which never touches time_entries. -/
inductive TimerStep : TimerStore → TimerStore → Prop where
  | start (s : TimerStore) (userId workProjectId activityId : Nat)
      (taskName : String) (description : Option String) (now : Millis) :
      TimerStep s
        (startHandler s userId workProjectId activityId taskName description
          now).2
  | stop (s : TimerStore) (userId : Nat) (description : Option String)
      (now : Millis) :
      TimerStep s (stopHandler s userId description now).2
  | createManual (s : TimerStore) (userId : Nat) (b : ManualEntryBody) :
      TimerStep s (createManualPipeline s userId b).2
  | updateEntry (s : TimerStore) (entryId userId : Nat)
      (b : UpdateEntryBody) :
      TimerStep s (updateEntryPipeline s entryId userId b).2
  | deleteEntry (s : TimerStore) (entryId userId : Nat) :
      TimerStep s (deleteEntryHandler s entryId userId).2
  | setCatalog (s : TimerStore) (ps : List WorkProject)
      (acts : List Activity) :
      TimerStep s { s with projects := ps, activities := acts }

/-- States reachable from an empty time_entries table through the timer
routes. -/
inductive TimerReachable : TimerStore → Prop where
  | init (ps : List WorkProject) (acts : List Activity) :
      TimerReachable
        { projects := ps, activities := acts, entries := [], nextId := 0 }
  | step {s s2 : TimerStore} :
      TimerReachable s → TimerStep s s2 → TimerReachable s2

/-- The calendar date of a timestamp, as the UTC day number.  The source
derives the date with toISOString().split("T")[0], which is the UTC calendar
date; two timestamps yield the same YYYY-MM-DD string exactly when they fall
in the same UTC day, i.e. have the same floor(ms / 86400000). -/
def toLoginDate (t : Millis) : Int := t.fdiv 86400000

/-- Hours as (ms / 3600000).toFixed(2), scaled to an integer count of
hundredths of an hour; toFixed rounds to the nearest hundredth (ties rounded
up here). -/
def toFixedCentiHours (ms : Int) : Int := (ms * 100 + 1800000).fdiv 3600000

/-- A row of daily_login_trackers (models/DailyLoginTracker.js).
totalWorkingHours is DECIMAL(5,2); it is held as hundredths of an hour. -/
structure Tracker where
  id : Nat
  userId : Nat
  loginDate : Int
  firstLoginTime : Millis
  dayEndTime : Option Millis
  ipAddress : Option String
  userAgent : Option String
  location : Option String
  notes : Option String
  totalWorkingHours : Option Int
deriving DecidableEq

/-- The beforeSave hook of DailyLoginTracker (models/DailyLoginTracker.js
lines 88-100): with both timestamps present, totalWorkingHours :=
Math.max(0, hours.toFixed(2)); otherwise null.  firstLoginTime is a non-null
Date, hence always truthy in the source condition. -/
def trackerBeforeSave (t : Tracker) : Tracker :=
  match t.dayEndTime with
  | some de =>
    { t with
      totalWorkingHours := some (max 0 (toFixedCentiHours (de - t.firstLoginTime))) }
  | none => { t with totalWorkingHours := none }

/-- The persistent daily_login_trackers table. -/
structure TrackerStore where
  trackers : List Tracker
  nextId : Nat
deriving DecidableEq

/-- The where-clause { userId, loginDate } of trackFirstLogin and
getTodayTracker. -/
def isTrackerFor (u : Nat) (d : Int) (t : Tracker) : Bool :=
  t.userId == u && t.loginDate == d

/-- DailyLoginTracker.findOne({ where: { userId, loginDate } }). -/
def findTracker (s : TrackerStore) (userId : Nat) (d : Int) : Option Tracker :=
  s.trackers.find? (isTrackerFor userId d)

/-- Persisting an updated tracker row: replace the row with the same primary
key. -/
def replaceTracker (s : TrackerStore) (t : Tracker) : TrackerStore :=
  { s with trackers := s.trackers.map (fun x => if x.id == t.id then t else x) }

/-- Return value of DailyLoginTracker.trackFirstLogin. -/
structure TrackResult where
  isFirstLogin : Bool
  tracker : Tracker
deriving DecidableEq

/-- DailyLoginTracker.trackFirstLogin (models/DailyLoginTracker.js lines
133-172): derive the calendar date of loginTime, return the existing row
unchanged with isFirstLogin = false when one exists for (user, date), create
the row otherwise. -/
def trackFirstLogin (s : TrackerStore) (userId : Nat) (loginTime : Millis)
    (ipAddress userAgent location : Option String) :
    TrackResult × TrackerStore :=
  let loginDate := toLoginDate loginTime
  match findTracker s userId loginDate with
  | some t => ({ isFirstLogin := false, tracker := t }, s)
  | none =>
    let t := trackerBeforeSave
      { id := s.nextId, userId := userId, loginDate := loginDate,
        firstLoginTime := loginTime, dayEndTime := none,
        ipAddress := ipAddress, userAgent := userAgent, location := location,
        notes := none, totalWorkingHours := none }
    ({ isFirstLogin := true, tracker := t },
     { trackers := s.trackers ++ [t], nextId := s.nextId + 1 })

/-- DailyLoginTracker.prototype.endDay (models/DailyLoginTracker.js lines
114-123): set dayEndTime, keep the old notes when the argument is falsy, and
save (the hook recomputes totalWorkingHours). -/
def Tracker.endDay (t : Tracker) (endTime : Millis) (notes : Option String) :
    Tracker :=
  trackerBeforeSave
    { t with dayEndTime := some endTime, notes := jsStringOr notes t.notes }

/-- DailyLoginTracker.prototype.getWorkingHoursFormatted
(models/DailyLoginTracker.js lines 125-130): "N/A" when totalWorkingHours is
null or zero (zero is falsy in JS), otherwise floor hours and rounded
minutes. -/
def Tracker.getWorkingHoursFormatted (t : Tracker) : String :=
  match t.totalWorkingHours with
  | none => "N/A"
  | some twh =>
    if twh = 0 then "N/A"
    else
      let hours := twh.fdiv 100
      let minutes := ((twh - hours * 100) * 60 + 50).fdiv 100
      toString hours ++ "h " ++ toString minutes ++ "m"

/-- Outcome of POST /api/daily-login/end-day (routes/admin.js lines 329-388).
noLoginToday and alreadyEnded are the two 400 ConflictError branches;
alreadyEnded carries the stored end time and the formatted hours that the
response data reports. -/
inductive EndDayResult where
  | noLoginToday
  | alreadyEnded (endTime : Millis) (totalHours : String)
  | ended (tracker : Tracker) (workingHours : String)
deriving DecidableEq

/-- The POST /api/daily-login/end-day handler (routes/admin.js lines
329-388): look up the tracker of today, refuse when absent, report the existing
end time and formatted hours when the day already ended, otherwise save
dayEndTime := now (and the location in a second save when provided). -/
def endDayHandler (s : TrackerStore) (userId : Nat)
    (notes location : Option String) (now : Millis) :
    EndDayResult × TrackerStore :=
  match findTracker s userId (toLoginDate now) with
  | none => (.noLoginToday, s)
  | some t =>
    match t.dayEndTime with
    | some de => (.alreadyEnded de t.getWorkingHoursFormatted, s)
    | none =>
      let t1 := t.endDay now notes
      let s1 := replaceTracker s t1
      match location with
      | some loc =>
        if loc = "" then (.ended t1 t1.getWorkingHoursFormatted, s1)
        else
          let t2 := trackerBeforeSave { t1 with location := some loc }
          (.ended t2 t2.getWorkingHoursFormatted, replaceTracker s1 t2)
      | none => (.ended t1 t1.getWorkingHoursFormatted, s1)

/-- Outcome of PUT /api/daily-login/tracker/:trackerId (routes/admin.js
lines 596-648). -/
inductive UpdateTrackerResult where
  | trackerNotFound
  | noValidFields
  | updated (tracker : Tracker)
deriving DecidableEq

/-- DailyLoginTracker.findOne({ where: { id: trackerId, userId } }). -/
def findTrackerByIdUser (s : TrackerStore) (trackerId userId : Nat) :
    Option Tracker :=
  s.trackers.find? (fun t => t.id == trackerId && t.userId == userId)

/-- The PUT /api/daily-login/tracker/:trackerId handler (routes/admin.js
lines 596-648): ownership scope, 400 when neither notes nor location is
provided, otherwise merge the provided fields and save (the beforeSave hook
recomputes totalWorkingHours). -/
def updateTrackerHandler (s : TrackerStore) (trackerId userId : Nat)
    (notes location : Option String) : UpdateTrackerResult × TrackerStore :=
  match findTrackerByIdUser s trackerId userId with
  | none => (.trackerNotFound, s)
  | some t =>
    if notes = none ∧ location = none then (.noValidFields, s)
    else
      let t2 := trackerBeforeSave
        { t with
          notes := match notes with | some n => some n | none => t.notes,
          location := match location with | some l => some l | none => t.location }
      (.updated t2, replaceTracker s t2)

/-- The ON DELETE CASCADE of the trackers-to-users association
(models/DailyLoginTracker.js lines 105-111): deleting a user via
DELETE /api/admin/users/:id removes every tracker row of that user. -/
def cascadeDeleteUserTrackers (s : TrackerStore) (userId : Nat) :
    TrackerStore :=
  { s with trackers := s.trackers.filter (fun t => !(t.userId == userId)) }

/-- One write against daily_login_trackers: trackFirstLogin runs on every
successful authentication; endDayHandler serves POST /api/daily-login/end-day
and updateTrackerHandler serves PUT /api/daily-login/tracker/:trackerId; the
user-delete cascade removes the rows of a deleted user. -/
inductive TrackerStep : TrackerStore → TrackerStore → Prop where
  | track (s : TrackerStore) (userId : Nat) (loginTime : Millis)
      (ip ua loc : Option String) :
      TrackerStep s (trackFirstLogin s userId loginTime ip ua loc).2
  | endDay (s : TrackerStore) (userId : Nat) (notes location : Option String)
      (now : Millis) :
      TrackerStep s (endDayHandler s userId notes location now).2
  | updateTracker (s : TrackerStore) (trackerId userId : Nat)
      (notes location : Option String) :
      TrackerStep s (updateTrackerHandler s trackerId userId notes location).2
  | userDeleteCascade (s : TrackerStore) (userId : Nat) :
      TrackerStep s (cascadeDeleteUserTrackers s userId)

/-- Tracker states reachable from the empty table. -/
inductive TrackerReachable : TrackerStore → Prop where
  | init : TrackerReachable { trackers := [], nextId := 0 }
  | step {s s2 : TrackerStore} :
      TrackerReachable s → TrackerStep s s2 → TrackerReachable s2

/-- A row of users (models/User.js); password holds the stored credential
hash.  bcrypt.compare is modelled as equality of the candidate with the
stored credential. -/
structure AuthUser where
  id : Nat
  name : String
  email : String
  password : String
  isActive : Bool
  loginAttempts : Int
  lockUntil : Option Millis
  lastLogin : Option Millis
deriving DecidableEq

/-- config.security (config/index.js): maxLoginAttempts (default 5) and
lockoutTime in ms (default 30 minutes). -/
structure SecurityConfig where
  maxLoginAttempts : Int
  lockoutTime : Millis
deriving DecidableEq

/-- User.prototype.isLocked: lockUntil is set and strictly in the future. -/
def isLocked (u : AuthUser) (now : Millis) : Bool :=
  match u.lockUntil with
  | some lu => decide (now < lu)
  | none => false

/-- User.prototype.incLoginAttempts (models/User.js lines 125-143): when a
previously set lock has expired, restart at one attempt and clear the lock;
otherwise increment, and set the lock when the incremented count reaches the
threshold while not currently locked. -/
def incLoginAttempts (cfg : SecurityConfig) (u : AuthUser) (now : Millis) :
    AuthUser :=
  if (match u.lockUntil with | some lu => decide (lu < now) | none => false) then
    { u with loginAttempts := 1, lockUntil := none }
  else if cfg.maxLoginAttempts ≤ u.loginAttempts + 1 && !(isLocked u now) then
    { u with loginAttempts := u.loginAttempts + 1,
             lockUntil := some (now + cfg.lockoutTime) }
  else { u with loginAttempts := u.loginAttempts + 1 }

/-- User.prototype.resetLoginAttempts. -/
def resetLoginAttempts (u : AuthUser) : AuthUser :=
  { u with loginAttempts := 0, lockUntil := none }

/-- The persistent state touched by POST /api/auth/login. -/
structure AuthState where
  users : List AuthUser
  daily : TrackerStore
deriving DecidableEq

/-- Persisting an updated user row: replace the row with the same primary
key. -/
def replaceUser (l : List AuthUser) (u : AuthUser) : List AuthUser :=
  l.map (fun x => if x.id == u.id then u else x)

/-- Outcome of POST /api/auth/login (routes/auth.js lines 74-180).
invalidCredentials is the 401 response with message "Invalid email or
password"; its attemptsRemaining field is present only on the bad-password
branch (routes/auth.js lines 124-128), absent on the unknown-email branch
(lines 83-88).  locked is the 423 response carrying lockTimeRemaining in
minutes. -/
inductive LoginResult where
  | invalidCredentials (attemptsRemaining : Option Int)
  | locked (lockTimeRemaining : Int)
  | deactivated
  | success (name : String) (isFirstLoginToday : Bool)
      (firstLoginTime : Millis) (loginDate : Int)
deriving DecidableEq

/-- The POST /api/auth/login handler (routes/auth.js lines 74-180): find by
email, check the lock, check isActive, verify the password (incrementing
attempts on failure; the mutated instance feeds attemptsRemaining), and on
success reset the counters, stamp lastLogin and track the first daily
login. -/
def login (cfg : SecurityConfig) (s : AuthState) (email password : String)
    (ip ua loc : Option String) (now : Millis) : LoginResult × AuthState :=
  match s.users.find? (fun u => u.email == email) with
  | none => (.invalidCredentials none, s)
  | some user =>
    if isLocked user now then
      (.locked (jsCeilDiv (user.lockUntil.getD 0 - now) 60000), s)
    else if !user.isActive then (.deactivated, s)
    else if password ≠ user.password then
      let user2 := incLoginAttempts cfg user now
      (.invalidCredentials
         (some (max 0 (cfg.maxLoginAttempts - (user2.loginAttempts + 1)))),
       { s with users := replaceUser s.users user2 })
    else
      let user2 :=
        if 0 < user.loginAttempts then resetLoginAttempts user else user
      let user3 := { user2 with lastLogin := some now }
      let tracked := trackFirstLogin s.daily user.id now ip ua loc
      (.success user.name tracked.1.isFirstLogin tracked.1.tracker.firstLoginTime
         tracked.1.tracker.loginDate,
       { users := replaceUser s.users user3, daily := tracked.2 })

/-- The HTTP status the login handler attaches to each outcome. -/
def loginStatus : LoginResult → Nat
  | .invalidCredentials _ => 401
  | .locked _ => 423
  | .deactivated => 401
  | .success _ _ _ _ => 200

/-- The message field the login handler attaches to each outcome. -/
def loginMessage : LoginResult → String
  | .invalidCredentials _ => "Invalid email or password"
  | .locked m => "Account locked. Try again in " ++ toString m ++ " minutes."
  | .deactivated => "Account has been deactivated. Contact administrator."
  | .success n _ _ _ => "Welcome back, " ++ n ++ "!"

/-- A concrete catalog: one project, one activity, no entries. -/
def demoTimerStore0 : TimerStore :=
  { projects := [{ id := 1, name := "Website" }],
    activities := [{ id := 2, name := "Development" }],
    entries := [], nextId := 0 }

/-- The store after user 7 starts a timer at t = 1000. -/
def demoTimerStore1 : TimerStore :=
  (startHandler demoTimerStore0 7 1 2 "Fix login page" none 1000).2

/-- The open entry created by that start. -/
def demoEntry1 : TimeEntry :=
  { id := 0, userId := 7, workProjectId := 1, activityId := 2,
    taskName := "Fix login page", description := none, startTime := 1000,
    endTime := none, durationMinutes := 0, isManual := false }

/-- The store after user 7 stops the timer at t = 61000. -/
def demoTimerStore2 : TimerStore := (stopHandler demoTimerStore1 7 none 61000).2

/-- The closed entry after that stop: 60 s elapsed, one minute stored. -/
def demoEntry2 : TimeEntry :=
  { demoEntry1 with endTime := some 61000, durationMinutes := 1 }

/-- A request body whose endTime precedes its startTime. -/
def demoManualBody : ManualEntryBody :=
  { workProjectId := 1, activityId := 2, taskName := "Manual work",
    description := none, startTime := 5000, endTime := 4000 }

/-- An empty daily_login_trackers table. -/
def demoTrackerStore0 : TrackerStore := { trackers := [], nextId := 0 }

/-- The table after user 3 first logs in at t = 1000 (UTC day 0). -/
def demoTrackerStore1 : TrackerStore :=
  (trackFirstLogin demoTrackerStore0 3 1000 none none none).2

/-- The row that login creates. -/
def demoTracker1 : Tracker :=
  { id := 0, userId := 3, loginDate := 0, firstLoginTime := 1000,
    dayEndTime := none, ipAddress := none, userAgent := none, location := none,
    notes := none, totalWorkingHours := none }

/-- The table after user 3 ends the day at t = 3600000. -/
def demoTrackerStore2 : TrackerStore :=
  (endDayHandler demoTrackerStore1 3 none none 3600000).2

/-- The ended row: 3599000 ms elapsed, 1.00 hours stored (100 centihours). -/
def demoTrackerEnded : Tracker :=
  { demoTracker1 with dayEndTime := some 3600000,
                      totalWorkingHours := some 100 }

/-- The default security config (config/index.js): threshold 5, lockout 30
minutes. -/
def cfgDemo : SecurityConfig := { maxLoginAttempts := 5, lockoutTime := 1800000 }

/-- A registered, active, unlocked user. -/
def demoAuthUser : AuthUser :=
  { id := 1, name := "Ann", email := "ann@example.com", password := "pw",
    isActive := true, loginAttempts := 0, lockUntil := none, lastLogin := none }

/-- The auth state holding just that user. -/
def demoAuthState : AuthState :=
  { users := [demoAuthUser], daily := { trackers := [], nextId := 0 } }

/-- One wrong-password login attempt against that account at the given time. -/
def failedLoginAt (s : AuthState) (now : Millis) : AuthState :=
  (login cfgDemo s "ann@example.com" "wrong" none none none now).2

/-- The state after five wrong-password logins at t = 0: loginAttempts = 5,
lockUntil = 1800000. -/
def demoAuthState5 : AuthState :=
  failedLoginAt (failedLoginAt (failedLoginAt (failedLoginAt
    (failedLoginAt demoAuthState 0) 0) 0) 0) 0

/-- The locked account row inside demoAuthState5. -/
def demoAuthUser5 : AuthUser :=
  { demoAuthUser with loginAttempts := 5, lockUntil := some 1800000 }

/-- The shape every persisted time_entries row has: the model validations
hold and, for completed rows, durationMinutes carries the hook-computed
floor of the elapsed minutes. -/
def entryWellFormed (e : TimeEntry) : Prop :=
  2 ≤ e.taskName.length ∧ e.taskName.length ≤ 300 ∧ 0 ≤ e.durationMinutes ∧
  ∀ et, e.endTime = some et →
    e.startTime < et ∧ e.durationMinutes = (et - e.startTime).fdiv 60000

/-- The cross-row invariants of the time_entries table: at most one open
entry per user, distinct primary keys below nextId, and well-formed rows. -/
def TimerInv (s : TimerStore) : Prop :=
  (∀ u, (openEntries s u).length ≤ 1) ∧
  (s.entries.map TimeEntry.id).Nodup ∧
  (∀ e ∈ s.entries, e.id < s.nextId) ∧
  (∀ e ∈ s.entries, entryWellFormed e)

/-- The shape every persisted daily_login_trackers row has: totalWorkingHours
is exactly what the beforeSave hook computes from the two timestamps. -/
def trackerRowInv (t : Tracker) : Prop :=
  (t.dayEndTime = none → t.totalWorkingHours = none) ∧
  ∀ de, t.dayEndTime = some de →
    t.totalWorkingHours = some (max 0 (toFixedCentiHours (de - t.firstLoginTime)))

/-- The cross-row invariants of the daily_login_trackers table: the
unique_user_date index, distinct primary keys below nextId, and hook-shaped
rows. -/
def TrackerInv (s : TrackerStore) : Prop :=
  (∀ u d, (s.trackers.filter (isTrackerFor u d)).length ≤ 1) ∧
  (s.trackers.map Tracker.id).Nodup ∧
  (∀ t ∈ s.trackers, t.id < s.nextId) ∧
  (∀ t ∈ s.trackers, trackerRowInv t)

lemma filterLenMono {α : Type} (l : List α) (p q : α → Bool)
    (h : ∀ x ∈ l, p x = true → q x = true) :
    (l.filter p).length ≤ (l.filter q).length := by
  induction l with
  | nil => simp
  | cons a t ih =>
    have ih2 := ih (fun x hx hp => h x (List.mem_cons_of_mem a hx) hp)
    by_cases hp : p a = true
    · rw [List.filter_cons_of_pos hp,
        List.filter_cons_of_pos (h a (List.mem_cons_self a t) hp)]
      simpa using ih2
    · rw [List.filter_cons_of_neg hp]
      by_cases hq : q a = true
      · rw [List.filter_cons_of_pos hq]
        exact Nat.le_succ_of_le ih2
      · rw [List.filter_cons_of_neg hq]
        exact ih2

lemma filterMapLenLe {α : Type} (l : List α) (f : α → α) (p : α → Bool)
    (h : ∀ x ∈ l, p (f x) = true → p x = true) :
    ((l.map f).filter p).length ≤ (l.filter p).length := by
  induction l with
  | nil => simp
  | cons a t ih =>
    have ih2 := ih (fun x hx hp => h x (List.mem_cons_of_mem a hx) hp)
    rw [List.map_cons]
    by_cases hfa : p (f a) = true
    · rw [List.filter_cons_of_pos hfa,
        List.filter_cons_of_pos (h a (List.mem_cons_self a t) hfa)]
      simpa using ih2
    · rw [List.filter_cons_of_neg hfa]
      by_cases hpa : p a = true
      · rw [List.filter_cons_of_pos hpa]
        exact Nat.le_succ_of_le ih2
      · rw [List.filter_cons_of_neg hpa]
        exact ih2

lemma filterMapLenEq {α : Type} (l : List α) (f : α → α) (p : α → Bool)
    (h : ∀ x ∈ l, p (f x) = p x) :
    ((l.map f).filter p).length = (l.filter p).length := by
  induction l with
  | nil => simp
  | cons a t ih =>
    have ih2 := ih (fun x hx => h x (List.mem_cons_of_mem a hx))
    rw [List.map_cons]
    by_cases hpa : p a = true
    · rw [List.filter_cons_of_pos hpa,
        List.filter_cons_of_pos ((h a (List.mem_cons_self a t)).trans hpa)]
      simpa using ih2
    · rw [List.filter_cons_of_neg hpa,
        List.filter_cons_of_neg (by rw [h a (List.mem_cons_self a t)]; exact hpa)]
      exact ih2

lemma mapMapCongr {α β : Type} (l : List α) (f : α → α) (g : α → β)
    (h : ∀ x ∈ l, g (f x) = g x) :
    (l.map f).map g = l.map g := by
  induction l with
  | nil => simp
  | cons a t ih =>
    simp only [List.map_cons, List.cons.injEq]
    exact ⟨h a (List.mem_cons_self a t),
      ih (fun x hx => h x (List.mem_cons_of_mem a hx))⟩

lemma filterFilterLe {α : Type} (l : List α) (p q : α → Bool) :
    ((l.filter q).filter p).length ≤ (l.filter p).length := by
  induction l with
  | nil => simp
  | cons a t ih =>
    by_cases hq : q a = true
    · rw [List.filter_cons_of_pos hq]
      by_cases hp : p a = true
      · rw [List.filter_cons_of_pos hp, List.filter_cons_of_pos hp]
        simpa using ih
      · rw [List.filter_cons_of_neg hp, List.filter_cons_of_neg hp]
        exact ih
    · rw [List.filter_cons_of_neg hq]
      by_cases hp : p a = true
      · rw [List.filter_cons_of_pos hp]
        exact Nat.le_succ_of_le ih
      · rw [List.filter_cons_of_neg hp]
        exact ih

lemma find?_eq_some_of_unique {α : Type} (l : List α) (p : α → Bool)
    (hcount : (l.filter p).length ≤ 1) (e : α) (hmem : e ∈ l)
    (hpe : p e = true) : l.find? p = some e := by
  induction l with
  | nil => cases hmem
  | cons a t ih =>
    by_cases hpa : p a = true
    · have hnil : t.filter p = [] := by
        rw [List.filter_cons_of_pos hpa] at hcount
        simpa [List.length_eq_zero] using Nat.le_of_succ_le_succ hcount
      rcases List.mem_cons.mp hmem with rfl | he
      · exact List.find?_cons_of_pos t hpa
      · exfalso
        have : e ∈ t.filter p := List.mem_filter.mpr ⟨he, hpe⟩
        rw [hnil] at this
        cases this
    · rcases List.mem_cons.mp hmem with rfl | he
      · exact absurd hpe hpa
      · rw [List.find?_cons_of_neg t hpa]
        rw [List.filter_cons_of_neg hpa] at hcount
        exact ih hcount he

lemma filterKeyLeOne {α β : Type} [DecidableEq β] (l : List α) (g : α → β)
    (hnd : (l.map g).Nodup) (b : β) :
    (l.filter (fun x => g x == b)).length ≤ 1 := by
  induction l with
  | nil => simp
  | cons a t ih =>
    rw [List.map_cons, List.nodup_cons] at hnd
    by_cases hga : (g a == b) = true
    · rw [List.filter_cons_of_pos (p := fun x => g x == b) hga]
      have hnil : t.filter (fun x => g x == b) = [] := by
        apply List.filter_eq_nil_iff.mpr
        intro x hx hgx
        apply hnd.1
        have hab : g a = b := by simpa using hga
        have hxb : g x = b := by simpa using hgx
        rw [hab, ← hxb]
        exact List.mem_map_of_mem g hx
      rw [hnil]
      simp
    · rw [List.filter_cons_of_neg (p := fun x => g x == b) hga]
      exact ih hnd.2

lemma find?_append_none {α : Type} (l1 l2 : List α) (p : α → Bool)
    (h : l1.find? p = none) : (l1 ++ l2).find? p = l2.find? p := by
  induction l1 with
  | nil => simp
  | cons a t ih =>
    by_cases hpa : p a = true
    · rw [List.find?_cons_of_pos t hpa] at h
      cases h
    · rw [List.find?_cons_of_neg t hpa] at h
      rw [List.cons_append, List.find?_cons_of_neg (t ++ l2) hpa]
      exact ih h

lemma trySave_eq_some {e e2 : TimeEntry} (h : trySaveTimeEntry e = some e2) :
    e2 = timeEntryBeforeSave e ∧ timeEntryValid e = true := by
  unfold trySaveTimeEntry at h
  split at h
  · exact ⟨(Option.some.inj h).symm, by assumption⟩
  · cases h

lemma beforeSave_none {e : TimeEntry} (h : e.endTime = none) :
    timeEntryBeforeSave e = e := by
  unfold timeEntryBeforeSave
  rw [h]

lemma beforeSave_some {e : TimeEntry} {et : Millis} (h : e.endTime = some et) :
    timeEntryBeforeSave e =
      { e with durationMinutes := (et - e.startTime).fdiv 60000 } := by
  unfold timeEntryBeforeSave
  rw [h]

lemma valid_props {e : TimeEntry} (h : timeEntryValid e = true) :
    2 ≤ e.taskName.length ∧ e.taskName.length ≤ 300 ∧ 0 ≤ e.durationMinutes ∧
    ∀ et, e.endTime = some et → e.startTime < et := by
  unfold timeEntryValid at h
  simp only [Bool.and_eq_true, decide_eq_true_eq] at h
  refine ⟨h.1.1.1, h.1.1.2, h.2, ?_⟩
  intro et het
  have hm := h.1.2
  rw [het] at hm
  simpa using hm

lemma wellFormed_of_trySave {e e2 : TimeEntry} (h : trySaveTimeEntry e = some e2) :
    entryWellFormed e2 ∧ e2.id = e.id ∧ e2.userId = e.userId ∧
    e2.endTime = e.endTime ∧ e2.startTime = e.startTime ∧
    e2.taskName = e.taskName := by
  obtain ⟨he2, hv⟩ := trySave_eq_some h
  obtain ⟨h1, h2, h3, h4⟩ := valid_props hv
  subst he2
  cases het : e.endTime with
  | none =>
    rw [beforeSave_none het]
    refine ⟨⟨h1, h2, h3, ?_⟩, rfl, rfl, het, rfl, rfl⟩
    intro et het2
    rw [het] at het2
    cases het2
  | some et =>
    rw [beforeSave_some het]
    have hlt := h4 et het
    have hd : (0 : Int) ≤ (et - e.startTime).fdiv 60000 :=
      Int.fdiv_nonneg (Int.sub_nonneg.mpr (le_of_lt hlt)) (by norm_num)
    refine ⟨⟨h1, h2, hd, ?_⟩, rfl, rfl, het, rfl, rfl⟩
    intro et2 het2
    rw [het] at het2
    cases Option.some.inj het2
    exact ⟨hlt, rfl⟩

lemma timerInv_append (s : TimerStore) (h : TimerInv s) (e : TimeEntry)
    (hid : e.id = s.nextId) (hwf : entryWellFormed e)
    (hopen : ∀ u, isOpenFor u e = true → findActiveTimer s u = none) :
    TimerInv { s with entries := s.entries ++ [e], nextId := s.nextId + 1 } := by
  obtain ⟨hO, hN, hI, hW⟩ := h
  refine ⟨?_, ?_, ?_, ?_⟩
  · intro u
    show ((s.entries ++ [e]).filter (isOpenFor u)).length ≤ 1
    rw [List.filter_append]
    by_cases hoe : isOpenFor u e = true
    · have hnil : s.entries.filter (isOpenFor u) = [] := by
        apply List.filter_eq_nil_iff.mpr
        intro x hx
        exact List.find?_eq_none.mp (hopen u hoe) x hx
      rw [hnil]
      simp [hoe]
    · have hnil : List.filter (isOpenFor u) [e] = [] := by
        simp [hoe]
      rw [hnil, List.append_nil]
      exact hO u
  · show ((s.entries ++ [e]).map TimeEntry.id).Nodup
    rw [List.map_append, List.nodup_append]
    refine ⟨hN, by simp, ?_⟩
    intro a ha hb
    simp only [List.map_cons, List.map_nil, List.mem_singleton] at hb
    rcases List.mem_map.mp ha with ⟨x, hx, rfl⟩
    have := hI x hx
    omega
  · intro x hx
    rcases List.mem_append.mp hx with hx2 | hx2
    · exact Nat.lt_succ_of_lt (hI x hx2)
    · rw [List.mem_singleton] at hx2
      subst hx2
      show x.id < s.nextId + 1
      omega
  · intro x hx
    rcases List.mem_append.mp hx with hx2 | hx2
    · exact hW x hx2
    · rw [List.mem_singleton] at hx2
      subst hx2
      exact hwf

lemma timerInv_replace (s : TimerStore) (h : TimerInv s) (e2 : TimeEntry)
    (hclosed : e2.endTime ≠ none) (hwf : entryWellFormed e2) :
    TimerInv (replaceEntry s e2) := by
  obtain ⟨hO, hN, hI, hW⟩ := h
  have hfid : ∀ x : TimeEntry,
      ((if x.id == e2.id then e2 else x) : TimeEntry).id = x.id := by
    intro x
    by_cases hx : (x.id == e2.id) = true
    · rw [if_pos hx]
      have hx2 : x.id = e2.id := by simpa using hx
      exact hx2.symm
    · rw [if_neg hx]
  refine ⟨?_, ?_, ?_, ?_⟩
  · intro u
    show ((s.entries.map fun x => if x.id == e2.id then e2 else x).filter
      (isOpenFor u)).length ≤ 1
    refine le_trans (filterMapLenLe _ _ _ ?_) (hO u)
    intro x _ hopen
    by_cases hx : (x.id == e2.id) = true
    · rw [if_pos hx] at hopen
      exfalso
      apply hclosed
      unfold isOpenFor at hopen
      simp only [Bool.and_eq_true] at hopen
      obtain ⟨_, h2⟩ := hopen
      cases he : e2.endTime with
      | none => rfl
      | some v => rw [he] at h2; cases h2
    · rwa [if_neg hx] at hopen
  · show ((s.entries.map fun x => if x.id == e2.id then e2 else x).map
      TimeEntry.id).Nodup
    rw [mapMapCongr _ _ _ (fun x _ => hfid x)]
    exact hN
  · intro x hx
    rcases List.mem_map.mp hx with ⟨y, hy, rfl⟩
    show ((if y.id == e2.id then e2 else y) : TimeEntry).id <
      (replaceEntry s e2).nextId
    rw [hfid y]
    exact hI y hy
  · intro x hx
    rcases List.mem_map.mp hx with ⟨y, hy, rfl⟩
    by_cases hy2 : (y.id == e2.id) = true
    · rw [if_pos hy2]
      exact hwf
    · rw [if_neg hy2]
      exact hW y hy

lemma timerInv_remove (s : TimerStore) (h : TimerInv s) (i : Nat) :
    TimerInv (removeEntry s i) := by
  obtain ⟨hO, hN, hI, hW⟩ := h
  have hsub : List.Sublist (s.entries.filter (fun x => !(x.id == i)))
      s.entries :=
    List.filter_sublist s.entries
  refine ⟨?_, ?_, ?_, ?_⟩
  · intro u
    exact le_trans (filterFilterLe _ _ _) (hO u)
  · exact List.Nodup.sublist (List.Sublist.map TimeEntry.id hsub) hN
  · intro x hx
    exact hI x (hsub.subset hx)
  · intro x hx
    exact hW x (hsub.subset hx)

lemma startHandler_inv (s : TimerStore) (u wp act : Nat) (task : String)
    (descr : Option String) (now : Millis) (h : TimerInv s) :
    TimerInv (startHandler s u wp act task descr now).2 := by
  unfold startHandler
  cases hact : findActiveTimer s u with
  | some active =>
    dsimp only
    cases hp : findProject s active.workProjectId <;> exact h
  | none =>
    dsimp only
    cases hp : findProject s wp with
    | none => exact h
    | some p =>
      dsimp only
      cases ha : findActivity s act with
      | none => exact h
      | some a =>
        dsimp only
        cases hsv : trySaveTimeEntry
            { id := s.nextId, userId := u, workProjectId := wp,
              activityId := act, taskName := task,
              description := descr, startTime := now, endTime := none,
              durationMinutes := 0, isManual := false } with
        | none => exact h
        | some e =>
          obtain ⟨hwf, hid, huid, hend, _, _⟩ := wellFormed_of_trySave hsv
          refine timerInv_append s h e hid hwf ?_
          intro u2 hopen
          unfold isOpenFor at hopen
          simp only [Bool.and_eq_true] at hopen
          obtain ⟨h1, _⟩ := hopen
          rw [huid] at h1
          have hu : u = u2 := by simpa using h1
          rw [← hu]
          exact hact

lemma stopHandler_inv (s : TimerStore) (u : Nat) (descr : Option String)
    (now : Millis) (h : TimerInv s) :
    TimerInv (stopHandler s u descr now).2 := by
  unfold stopHandler
  cases hact : findActiveTimer s u with
  | none => exact h
  | some active =>
    dsimp only
    cases hsv : trySaveTimeEntry
        ({ active with
           endTime := some now,
           description := jsStringOr descr active.description }) with
    | none => exact h
    | some e =>
      obtain ⟨hwf, _, _, hend, _, _⟩ := wellFormed_of_trySave hsv
      refine timerInv_replace s h e ?_ hwf
      rw [hend]
      simp

lemma createManualPipeline_inv (s : TimerStore) (u : Nat)
    (b : ManualEntryBody) (h : TimerInv s) :
    TimerInv (createManualPipeline s u b).2 := by
  unfold createManualPipeline
  by_cases hj : joiValidManual b = true
  · rw [if_pos hj]
    unfold createManualHandler
    cases hp : findProject s (joiNormalizeManual b).workProjectId with
    | none => exact h
    | some p =>
      dsimp only
      cases ha : findActivity s (joiNormalizeManual b).activityId with
      | none => exact h
      | some a =>
        dsimp only
        by_cases hle : (joiNormalizeManual b).endTime ≤ (joiNormalizeManual b).startTime
        · rw [if_pos hle]
          exact h
        · rw [if_neg hle]
          cases hsv : trySaveTimeEntry
              { id := s.nextId, userId := u,
                workProjectId := (joiNormalizeManual b).workProjectId,
                activityId := (joiNormalizeManual b).activityId,
                taskName := (joiNormalizeManual b).taskName,
                description := (joiNormalizeManual b).description,
                startTime := (joiNormalizeManual b).startTime,
                endTime := some (joiNormalizeManual b).endTime,
                durationMinutes := 0, isManual := true } with
          | none => exact h
          | some e =>
            obtain ⟨hwf, hid, _, hend, _, _⟩ := wellFormed_of_trySave hsv
            refine timerInv_append s h e hid hwf ?_
            intro u2 hopen
            unfold isOpenFor at hopen
            simp only [Bool.and_eq_true] at hopen
            obtain ⟨_, h2⟩ := hopen
            rw [hend] at h2
            cases h2
  · rw [if_neg hj]
    exact h

lemma updateEntryPipeline_inv (s : TimerStore) (eid u : Nat)
    (b : UpdateEntryBody) (h : TimerInv s) :
    TimerInv (updateEntryPipeline s eid u b).2 := by
  unfold updateEntryPipeline
  by_cases hj : joiValidUpdate b = true
  · rw [if_pos hj]
    unfold updateEntryHandler
    cases hfind : findEntryByIdUser s eid u with
    | none => exact h
    | some e =>
      dsimp only
      by_cases hnone : e.endTime = none
      · rw [if_pos hnone]
        exact h
      · rw [if_neg hnone]
        cases hsv : trySaveTimeEntry (applyPatch e b) with
        | none => exact h
        | some e2 =>
          obtain ⟨hwf, _, _, hend, _, _⟩ := wellFormed_of_trySave hsv
          refine timerInv_replace s h e2 ?_ hwf
          rw [hend]
          unfold applyPatch
          cases hbe : b.endTime with
          | some et => simp
          | none => simpa using hnone
  · rw [if_neg hj]
    exact h

lemma deleteEntryHandler_inv (s : TimerStore) (eid u : Nat) (h : TimerInv s) :
    TimerInv (deleteEntryHandler s eid u).2 := by
  unfold deleteEntryHandler
  cases hfind : findEntryByIdUser s eid u with
  | none => exact h
  | some e =>
    dsimp only
    by_cases hnone : e.endTime = none
    · rw [if_pos hnone]
      exact h
    · rw [if_neg hnone]
      exact timerInv_remove s h e.id

lemma timerInv_of_step {s s2 : TimerStore} (h : TimerInv s)
    (hs : TimerStep s s2) : TimerInv s2 := by
  cases hs with
  | start u wp act task d now => exact startHandler_inv s u wp act task d now h
  | stop u d now => exact stopHandler_inv s u d now h
  | createManual u b => exact createManualPipeline_inv s u b h
  | updateEntry eid u b => exact updateEntryPipeline_inv s eid u b h
  | deleteEntry eid u => exact deleteEntryHandler_inv s eid u h
  | setCatalog ps acts => exact h

lemma timerInv_of_reachable {s : TimerStore} (h : TimerReachable s) :
    TimerInv s := by
  induction h with
  | init ps acts =>
    refine ⟨?_, ?_, ?_, ?_⟩
    · intro u
      simp [openEntries]
    · simp
    · intro e he
      cases he
    · intro e he
      cases he
  | step hr hstep ih => exact timerInv_of_step ih hstep

lemma mem_key_inj {α β : Type} [DecidableEq β] (l : List α) (g : α → β)
    (hnd : (l.map g).Nodup) {x y : α} (hx : x ∈ l) (hy : y ∈ l)
    (hxy : g x = g y) : x = y := by
  induction l with
  | nil => cases hx
  | cons a t ih =>
    rw [List.map_cons, List.nodup_cons] at hnd
    rcases List.mem_cons.mp hx with rfl | hx2
    · rcases List.mem_cons.mp hy with rfl | hy2
      · rfl
      · exfalso
        apply hnd.1
        rw [hxy]
        exact List.mem_map_of_mem g hy2
    · rcases List.mem_cons.mp hy with rfl | hy2
      · exfalso
        apply hnd.1
        rw [← hxy]
        exact List.mem_map_of_mem g hx2
      · exact ih hnd.2 hx2 hy2

lemma trackerBeforeSave_fields (t : Tracker) :
    (trackerBeforeSave t).id = t.id ∧ (trackerBeforeSave t).userId = t.userId ∧
    (trackerBeforeSave t).loginDate = t.loginDate ∧
    (trackerBeforeSave t).firstLoginTime = t.firstLoginTime ∧
    (trackerBeforeSave t).dayEndTime = t.dayEndTime := by
  unfold trackerBeforeSave
  cases hde : t.dayEndTime <;> simp [hde]

lemma rowInv_beforeSave (t : Tracker) : trackerRowInv (trackerBeforeSave t) := by
  unfold trackerBeforeSave trackerRowInv
  cases hde : t.dayEndTime with
  | none =>
    refine ⟨fun _ => rfl, ?_⟩
    intro de hcontra
    simp only [hde] at hcontra
    cases hcontra
  | some de =>
    constructor
    · intro hcontra
      simp only [hde] at hcontra
      cases hcontra
    · intro de2 hde2
      simp only [hde] at hde2
      cases Option.some.inj hde2
      rfl

lemma trackerReplace_facts (s : TrackerStore) (told tnew : Tracker)
    (hmem : told ∈ s.trackers) (hnd : (s.trackers.map Tracker.id).Nodup)
    (hid : tnew.id = told.id) (hu : tnew.userId = told.userId)
    (hd : tnew.loginDate = told.loginDate) :
    ((replaceTracker s tnew).trackers.map Tracker.id =
      s.trackers.map Tracker.id) ∧
    (∀ u d, ((replaceTracker s tnew).trackers.filter (isTrackerFor u d)).length
      = (s.trackers.filter (isTrackerFor u d)).length) ∧
    tnew ∈ (replaceTracker s tnew).trackers ∧
    (∀ x ∈ (replaceTracker s tnew).trackers, x = tnew ∨ x ∈ s.trackers) := by
  have hfid : ∀ x : Tracker,
      ((if x.id == tnew.id then tnew else x) : Tracker).id = x.id := by
    intro x
    by_cases hx : (x.id == tnew.id) = true
    · rw [if_pos hx]
      have hx2 : x.id = tnew.id := by simpa using hx
      exact hx2.symm
    · rw [if_neg hx]
  refine ⟨?_, ?_, ?_, ?_⟩
  · exact mapMapCongr _ _ _ (fun x _ => hfid x)
  · intro u d
    apply filterMapLenEq
    intro x hx
    by_cases hxid : (x.id == tnew.id) = true
    · rw [if_pos hxid]
      have hx2 : x.id = told.id := by
        have : x.id = tnew.id := by simpa using hxid
        omega
      have hxt : x = told := mem_key_inj s.trackers Tracker.id hnd hx hmem hx2
      subst hxt
      unfold isTrackerFor
      rw [hu, hd]
    · rw [if_neg hxid]
  · show tnew ∈ s.trackers.map fun x => if x.id == tnew.id then tnew else x
    have hmm := List.mem_map_of_mem
      (fun x : Tracker => if x.id == tnew.id then tnew else x) hmem
    dsimp only at hmm
    rwa [if_pos (show (told.id == tnew.id) = true by simpa using hid.symm)]
      at hmm
  · intro x hx
    rcases List.mem_map.mp hx with ⟨y, hy, rfl⟩
    by_cases hyid : (y.id == tnew.id) = true
    · rw [if_pos hyid]
      exact Or.inl rfl
    · rw [if_neg hyid]
      exact Or.inr hy

lemma trackerInv_append (s : TrackerStore) (h : TrackerInv s) (t : Tracker)
    (hid : t.id = s.nextId) (hrow : trackerRowInv t)
    (hnew : findTracker s t.userId t.loginDate = none) :
    TrackerInv { trackers := s.trackers ++ [t], nextId := s.nextId + 1 } := by
  obtain ⟨hP, hN, hI, hR⟩ := h
  refine ⟨?_, ?_, ?_, ?_⟩
  · intro u d
    show ((s.trackers ++ [t]).filter (isTrackerFor u d)).length ≤ 1
    rw [List.filter_append]
    by_cases hot : isTrackerFor u d t = true
    · have hud : t.userId = u ∧ t.loginDate = d := by
        unfold isTrackerFor at hot
        simp only [Bool.and_eq_true] at hot
        constructor
        · have := hot.1
          simpa using this
        · have := hot.2
          simpa using this
      have hnil : s.trackers.filter (isTrackerFor u d) = [] := by
        apply List.filter_eq_nil_iff.mpr
        intro x hx
        rw [← hud.1, ← hud.2]
        exact List.find?_eq_none.mp hnew x hx
      rw [hnil]
      simp [hot]
    · have hnil : List.filter (isTrackerFor u d) [t] = [] := by
        simp [hot]
      rw [hnil, List.append_nil]
      exact hP u d
  · show ((s.trackers ++ [t]).map Tracker.id).Nodup
    rw [List.map_append, List.nodup_append]
    refine ⟨hN, by simp, ?_⟩
    intro a ha hb
    simp only [List.map_cons, List.map_nil, List.mem_singleton] at hb
    rcases List.mem_map.mp ha with ⟨x, hx, rfl⟩
    have := hI x hx
    omega
  · intro x hx
    rcases List.mem_append.mp hx with hx2 | hx2
    · exact Nat.lt_succ_of_lt (hI x hx2)
    · rw [List.mem_singleton] at hx2
      subst hx2
      show x.id < s.nextId + 1
      omega
  · intro x hx
    rcases List.mem_append.mp hx with hx2 | hx2
    · exact hR x hx2
    · rw [List.mem_singleton] at hx2
      subst hx2
      exact hrow

lemma trackerInv_replace (s : TrackerStore) (h : TrackerInv s)
    (told tnew : Tracker) (hmem : told ∈ s.trackers)
    (hid : tnew.id = told.id) (hu : tnew.userId = told.userId)
    (hd : tnew.loginDate = told.loginDate) (hrow : trackerRowInv tnew) :
    TrackerInv (replaceTracker s tnew) := by
  obtain ⟨hP, hN, hI, hR⟩ := h
  obtain ⟨hmap, hcnt, hmem2, hsub⟩ :=
    trackerReplace_facts s told tnew hmem hN hid hu hd
  refine ⟨?_, ?_, ?_, ?_⟩
  · intro u d
    rw [hcnt u d]
    exact hP u d
  · rw [hmap]
    exact hN
  · intro x hx
    rcases hsub x hx with rfl | hx2
    · show x.id < s.nextId
      rw [hid]
      exact hI told hmem
    · exact hI x hx2
  · intro x hx
    rcases hsub x hx with rfl | hx2
    · exact hrow
    · exact hR x hx2

lemma trackFirstLogin_inv (s : TrackerStore) (u : Nat) (lt : Millis)
    (ip ua loc : Option String) (h : TrackerInv s) :
    TrackerInv (trackFirstLogin s u lt ip ua loc).2 := by
  unfold trackFirstLogin
  dsimp only
  cases hf : findTracker s u (toLoginDate lt) with
  | some t => exact h
  | none =>
    dsimp only
    refine trackerInv_append s h _ ?_ (rowInv_beforeSave _) ?_
    · exact (trackerBeforeSave_fields _).1
    · rw [(trackerBeforeSave_fields _).2.1, (trackerBeforeSave_fields _).2.2.1]
      exact hf

lemma endDayHandler_inv (s : TrackerStore) (u : Nat)
    (notes location : Option String) (now : Millis) (h : TrackerInv s) :
    TrackerInv (endDayHandler s u notes location now).2 := by
  unfold endDayHandler
  cases hf : findTracker s u (toLoginDate now) with
  | none => exact h
  | some t =>
    dsimp only
    cases hde : t.dayEndTime with
    | some de => exact h
    | none =>
      dsimp only
      have hmem : t ∈ s.trackers := List.mem_of_find?_eq_some hf
      have h1 : TrackerInv (replaceTracker s (t.endDay now notes)) := by
        refine trackerInv_replace s h t _ hmem ?_ ?_ ?_ (rowInv_beforeSave _)
        · exact (trackerBeforeSave_fields _).1
        · exact (trackerBeforeSave_fields _).2.1
        · exact (trackerBeforeSave_fields _).2.2.1
      have hmem1 : t.endDay now notes ∈
          (replaceTracker s (t.endDay now notes)).trackers := by
        obtain ⟨_, _, hmem2, _⟩ :=
          trackerReplace_facts s t (t.endDay now notes) hmem h.2.1
            (trackerBeforeSave_fields _).1 (trackerBeforeSave_fields _).2.1
            (trackerBeforeSave_fields _).2.2.1
        exact hmem2
      cases location with
      | none => exact h1
      | some loc =>
        dsimp only
        by_cases hloc : loc = ""
        · rw [if_pos hloc]
          exact h1
        · rw [if_neg hloc]
          refine trackerInv_replace _ h1 (t.endDay now notes) _ hmem1 ?_ ?_ ?_
            (rowInv_beforeSave _)
          · exact (trackerBeforeSave_fields _).1
          · exact (trackerBeforeSave_fields _).2.1
          · exact (trackerBeforeSave_fields _).2.2.1

lemma updateTrackerHandler_inv (s : TrackerStore) (tid uid : Nat)
    (notes location : Option String) (h : TrackerInv s) :
    TrackerInv (updateTrackerHandler s tid uid notes location).2 := by
  unfold updateTrackerHandler
  cases hf : findTrackerByIdUser s tid uid with
  | none => exact h
  | some t =>
    dsimp only
    by_cases hno : notes = none ∧ location = none
    · rw [if_pos hno]
      exact h
    · rw [if_neg hno]
      refine trackerInv_replace s h t _ (List.mem_of_find?_eq_some hf)
        ?_ ?_ ?_ (rowInv_beforeSave _)
      · exact (trackerBeforeSave_fields _).1
      · exact (trackerBeforeSave_fields _).2.1
      · exact (trackerBeforeSave_fields _).2.2.1

lemma cascadeDeleteUserTrackers_inv (s : TrackerStore) (uid : Nat)
    (h : TrackerInv s) : TrackerInv (cascadeDeleteUserTrackers s uid) := by
  obtain ⟨hP, hN, hI, hR⟩ := h
  have hsub : List.Sublist (s.trackers.filter (fun t => !(t.userId == uid)))
      s.trackers :=
    List.filter_sublist s.trackers
  refine ⟨?_, ?_, ?_, ?_⟩
  · intro u d
    exact le_trans (filterFilterLe _ _ _) (hP u d)
  · exact List.Nodup.sublist (List.Sublist.map Tracker.id hsub) hN
  · intro x hx
    exact hI x (hsub.subset hx)
  · intro x hx
    exact hR x (hsub.subset hx)

lemma trackerInv_of_step {s s2 : TrackerStore} (h : TrackerInv s)
    (hs : TrackerStep s s2) : TrackerInv s2 := by
  cases hs with
  | track u lt ip ua loc => exact trackFirstLogin_inv s u lt ip ua loc h
  | endDay u notes location now => exact endDayHandler_inv s u notes location now h
  | updateTracker tid uid notes location =>
    exact updateTrackerHandler_inv s tid uid notes location h
  | userDeleteCascade uid => exact cascadeDeleteUserTrackers_inv s uid h

lemma trackerInv_of_reachable {s : TrackerStore} (h : TrackerReachable s) :
    TrackerInv s := by
  induction h with
  | init =>
    refine ⟨?_, ?_, ?_, ?_⟩
    · intro u d
      simp
    · simp
    · intro t ht
      cases ht
    · intro t ht
      cases ht
  | step hr hstep ih => exact trackerInv_of_step ih hstep

/-- Claim C3: for every time entry that has both startTime and endTime, the
stored duration equals floor((endTime - startTime) / 60 seconds) in minutes.
The equality holds for every entry of every reachable store, hence for
entries completed by stop and for entries created manually alike: both paths
persist through the same beforeSave hook. -/
theorem C3_duration_floor (s : TimerStore) (hs : TimerReachable s)
    (e : TimeEntry) (he : e ∈ s.entries) (et : Millis)
    (het : e.endTime = some et) :
    e.durationMinutes = (et - e.startTime).fdiv 60000 :=
  (((timerInv_of_reachable hs).2.2.2 e he).2.2.2 et het).2

/-- Claim C10: in every reachable tracker store, totalWorkingHours is null
whenever dayEndTime is null, is nonnegative whenever set, and when dayEndTime
is set it equals exactly the hook-computed value max 0 (toFixed hours) from
firstLoginTime and dayEndTime. -/
theorem C10_working_hours (s : TrackerStore) (hs : TrackerReachable s)
    (t : Tracker) (ht : t ∈ s.trackers) :
    (t.dayEndTime = none → t.totalWorkingHours = none) ∧
    (∀ v, t.totalWorkingHours = some v → 0 ≤ v) ∧
    (∀ de, t.dayEndTime = some de →
      t.totalWorkingHours =
        some (max 0 (toFixedCentiHours (de - t.firstLoginTime)))) := by
  have hrow := (trackerInv_of_reachable hs).2.2.2 t ht
  refine ⟨hrow.1, ?_, hrow.2⟩
  intro v hv
  cases hde : t.dayEndTime with
  | none =>
    rw [hrow.1 hde] at hv
    cases hv
  | some de =>
    rw [hrow.2 de hde] at hv
    cases Option.some.inj hv
    exact le_max_left 0 _

/-- Claim C5: a manual-entry request with endTime <= startTime always fails
at the Joi validation layer with a ValidationError and leaves the store
unchanged; and even the handler body alone would refuse it (404 or the
end-before-start 400) without ever creating a row. -/
theorem C5_manual_bad_range (s : TimerStore) (u : Nat) (b : ManualEntryBody)
    (h : b.endTime ≤ b.startTime) :
    createManualPipeline s u b = (.validationFailed, s) ∧
    (createManualHandler s u b).2 = s ∧
    ∀ e, (createManualHandler s u b).1 ≠ .created e := by
  have hj : joiValidManual b = false := by
    unfold joiValidManual
    have hlt : decide (b.startTime < b.endTime) = false := by
      simp [not_lt.mpr h]
    rw [hlt]
    simp
  have hh : (createManualHandler s u b).2 = s ∧
      ∀ e, (createManualHandler s u b).1 ≠ .created e := by
    unfold createManualHandler
    cases hp : findProject s b.workProjectId with
    | none =>
      refine ⟨rfl, ?_⟩
      intro e hc
      cases hc
    | some p =>
      dsimp only
      cases ha : findActivity s b.activityId with
      | none =>
        refine ⟨rfl, ?_⟩
        intro e hc
        cases hc
      | some a =>
        dsimp only
        rw [if_pos h]
        refine ⟨rfl, ?_⟩
        intro e hc
        cases hc
  refine ⟨?_, hh.1, hh.2⟩
  unfold createManualPipeline
  rw [hj]
  simp

/-- Claim C6: update and delete on an entry the requesting user owns that is
still open (endTime = null) both fail with the ConflictError guard
("only completed entries can be edited/deleted") and leave the store
unchanged. -/
theorem C6_open_entry_guard (s : TimerStore) (hs : TimerReachable s) (u : Nat)
    (e : TimeEntry) (he : e ∈ s.entries) (hu : e.userId = u)
    (hopen : e.endTime = none) (b : UpdateEntryBody) :
    updateEntryHandler s e.id u b = (.onlyCompletedEditable, s) ∧
    deleteEntryHandler s e.id u = (.onlyCompletedDeletable, s) := by
  have hinv := timerInv_of_reachable hs
  have hfind : findEntryByIdUser s e.id u = some e := by
    apply find?_eq_some_of_unique
    · refine le_trans (filterLenMono _ _ (fun x => x.id == e.id) ?_)
        (filterKeyLeOne s.entries TimeEntry.id hinv.2.1 e.id)
      intro x hx hpx
      simp only [Bool.and_eq_true] at hpx
      exact hpx.1
    · exact he
    · simp [hu]
  constructor
  · unfold updateEntryHandler
    rw [hfind]
    dsimp only
    rw [if_pos hopen]
  · unfold deleteEntryHandler
    rw [hfind]
    dsimp only
    rw [if_pos hopen]

/-- Claim C7: stop for a user with no open entry fails with the ConflictError
"No active timer found" and writes nothing; when an open entry exists (and
the clock is past its start), stop closes exactly that entry, setting its
endTime to the current time with the hook-recomputed duration. -/
theorem C7_stop (s : TimerStore) (hs : TimerReachable s) (u : Nat)
    (descr : Option String) (now : Millis) :
    (findActiveTimer s u = none →
      stopHandler s u descr now = (.noActiveTimer, s)) ∧
    (∀ e, findActiveTimer s u = some e → e.startTime < now →
      ∃ e2, stopHandler s u descr now = (.stopped e.id now, replaceEntry s e2) ∧
        e2.id = e.id ∧ e2.endTime = some now ∧
        e2.durationMinutes = (now - e.startTime).fdiv 60000) := by
  constructor
  · intro hnone
    unfold stopHandler
    rw [hnone]
  · intro e hfind hlt
    have hwf := (timerInv_of_reachable hs).2.2.2 e
      (List.mem_of_find?_eq_some hfind)
    have hvalid : timeEntryValid
        { e with endTime := some now,
                 description := jsStringOr descr e.description } = true := by
      unfold timeEntryValid
      simp [hwf.1, hwf.2.1, hwf.2.2.1, hlt]
    refine ⟨timeEntryBeforeSave
      { e with endTime := some now,
               description := jsStringOr descr e.description }, ?_, ?_, ?_, ?_⟩
    · unfold stopHandler
      rw [hfind]
      dsimp only
      unfold trySaveTimeEntry
      rw [if_pos hvalid]
      dsimp only
      rw [beforeSave_some
        (e := { e with
                endTime := some now,
                description := jsStringOr descr e.description }) rfl]
    · rw [beforeSave_some
        (e := { e with
                endTime := some now,
                description := jsStringOr descr e.description }) rfl]
    · rw [beforeSave_some
        (e := { e with
                endTime := some now,
                description := jsStringOr descr e.description }) rfl]
    · rw [beforeSave_some
        (e := { e with
                endTime := some now,
                description := jsStringOr descr e.description }) rfl]

/-- Claim C1: in every reachable store each user has at most one open entry;
start answers a ConflictError whose message names the running project
whenever the user already has an open entry, writing nothing; and a started
response happens only when no open entry existed, appending exactly one new
entry with endTime = null for that user. -/
theorem C1_one_active_timer (s : TimerStore) (hs : TimerReachable s)
    (u wp act : Nat) (task : String) (descr : Option String) (now : Millis) :
    (openEntries s u).length ≤ 1 ∧
    (∀ active, findActiveTimer s u = some active →
      (startHandler s u wp act task descr now).2 = s ∧
      ∀ p, findProject s active.workProjectId = some p →
        (startHandler s u wp act task descr now).1 =
          .conflictActiveTimer
            ("You already have an active timer running for project: " ++ p.name)
            active) ∧
    (∀ e, (startHandler s u wp act task descr now).1 = .started e →
      findActiveTimer s u = none ∧ e.endTime = none ∧ e.userId = u ∧
      (startHandler s u wp act task descr now).2.entries = s.entries ++ [e]) := by
  refine ⟨(timerInv_of_reachable hs).1 u, ?_, ?_⟩
  · intro active hact
    unfold startHandler
    rw [hact]
    dsimp only
    constructor
    · cases hp : findProject s active.workProjectId <;> rfl
    · intro p hp
      rw [hp]
  · intro e hse
    unfold startHandler at hse
    cases hact : findActiveTimer s u with
    | some active =>
      rw [hact] at hse
      dsimp only at hse
      cases hp : findProject s active.workProjectId with
      | some p => rw [hp] at hse; cases hse
      | none => rw [hp] at hse; cases hse
    | none =>
      rw [hact] at hse
      dsimp only at hse
      cases hp : findProject s wp with
      | none => rw [hp] at hse; cases hse
      | some p =>
        rw [hp] at hse
        dsimp only at hse
        cases ha : findActivity s act with
        | none => rw [ha] at hse; cases hse
        | some a =>
          rw [ha] at hse
          dsimp only at hse
          cases hsv : trySaveTimeEntry
              { id := s.nextId, userId := u, workProjectId := wp,
                activityId := act, taskName := task,
                description := descr, startTime := now, endTime := none,
                durationMinutes := 0, isManual := false } with
          | none => rw [hsv] at hse; cases hse
          | some e2 =>
            rw [hsv] at hse
            dsimp only at hse
            cases hse
            obtain ⟨_, _, huid, hend, _, _⟩ := wellFormed_of_trySave hsv
            refine ⟨rfl, hend, huid, ?_⟩
            unfold startHandler
            rw [hact]
            dsimp only
            rw [hp]
            dsimp only
            rw [ha]
            dsimp only
            rw [hsv]

/-- Claim C2: in every reachable tracker store there is at most one row per
(user, date) pair; a first login stamps its own timestamp; and a second
successful login on the same calendar date returns the existing tracker row
unchanged with isFirstLogin = false, leaving the store as it was. -/
theorem C2_tracker_unique (s : TrackerStore) (hs : TrackerReachable s)
    (u : Nat) (d : Int) (lt lt2 : Millis)
    (hday : toLoginDate lt2 = toLoginDate lt)
    (ip ua loc ip2 ua2 loc2 : Option String) :
    (s.trackers.filter (isTrackerFor u d)).length ≤ 1 ∧
    ((trackFirstLogin s u lt ip ua loc).1.isFirstLogin = true →
      (trackFirstLogin s u lt ip ua loc).1.tracker.firstLoginTime = lt) ∧
    trackFirstLogin (trackFirstLogin s u lt ip ua loc).2 u lt2 ip2 ua2 loc2 =
      ({ isFirstLogin := false,
         tracker := (trackFirstLogin s u lt ip ua loc).1.tracker },
       (trackFirstLogin s u lt ip ua loc).2) := by
  refine ⟨(trackerInv_of_reachable hs).1 u d, ?_, ?_⟩
  · intro hfirst
    unfold trackFirstLogin at hfirst ⊢
    dsimp only at hfirst ⊢
    cases hf : findTracker s u (toLoginDate lt) with
    | some t =>
      rw [hf] at hfirst
      dsimp only at hfirst
      cases hfirst
    | none =>
      dsimp only
      exact (trackerBeforeSave_fields _).2.2.2.1
  · cases hf : findTracker s u (toLoginDate lt) with
    | some t =>
      unfold trackFirstLogin
      dsimp only
      rw [hf]
      dsimp only
      rw [hday, hf]
    | none =>
      unfold trackFirstLogin
      dsimp only
      rw [hf]
      dsimp only
      rw [hday]
      have happ : (s.trackers ++
          [trackerBeforeSave
            { id := s.nextId, userId := u, loginDate := toLoginDate lt,
              firstLoginTime := lt, dayEndTime := none, ipAddress := ip,
              userAgent := ua, location := loc, notes := none,
              totalWorkingHours := none }]).find?
            (isTrackerFor u (toLoginDate lt)) =
          some (trackerBeforeSave
            { id := s.nextId, userId := u, loginDate := toLoginDate lt,
              firstLoginTime := lt, dayEndTime := none, ipAddress := ip,
              userAgent := ua, location := loc, notes := none,
              totalWorkingHours := none }) := by
        rw [find?_append_none _ _ _ hf]
        apply List.find?_cons_of_pos
        unfold isTrackerFor
        rw [(trackerBeforeSave_fields _).2.1, (trackerBeforeSave_fields _).2.2.1]
        simp
      show (match
          findTracker
            { trackers := s.trackers ++ [_], nextId := s.nextId + 1 } u
            (toLoginDate lt) with
        | some t => _
        | none => _) = _
      rw [show findTracker
          { trackers := s.trackers ++
              [trackerBeforeSave
                { id := s.nextId, userId := u, loginDate := toLoginDate lt,
                  firstLoginTime := lt, dayEndTime := none, ipAddress := ip,
                  userAgent := ua, location := loc, notes := none,
                  totalWorkingHours := none }], nextId := s.nextId + 1 } u
            (toLoginDate lt) =
          some (trackerBeforeSave
            { id := s.nextId, userId := u, loginDate := toLoginDate lt,
              firstLoginTime := lt, dayEndTime := none, ipAddress := ip,
              userAgent := ua, location := loc, notes := none,
              totalWorkingHours := none }) from happ]

lemma endDay_fields (t : Tracker) (e : Millis) (n : Option String) :
    (t.endDay e n).id = t.id ∧ (t.endDay e n).userId = t.userId ∧
    (t.endDay e n).loginDate = t.loginDate ∧
    (t.endDay e n).dayEndTime = some e := by
  unfold Tracker.endDay
  refine ⟨?_, ?_, ?_, ?_⟩
  · rw [(trackerBeforeSave_fields _).1]
  · rw [(trackerBeforeSave_fields _).2.1]
  · rw [(trackerBeforeSave_fields _).2.2.1]
  · rw [(trackerBeforeSave_fields _).2.2.2.2]

lemma endDay_already (s2 : TrackerStore) (hinv : TrackerInv s2) (u : Nat)
    (notes2 loc2 : Option String) (now2 : Millis) (t : Tracker) (de : Millis)
    (hmem : t ∈ s2.trackers) (hu : t.userId = u)
    (hld : t.loginDate = toLoginDate now2) (hde : t.dayEndTime = some de) :
    endDayHandler s2 u notes2 loc2 now2 =
      (.alreadyEnded de t.getWorkingHoursFormatted, s2) := by
  have hpt : isTrackerFor u (toLoginDate now2) t = true := by
    unfold isTrackerFor
    rw [hu, hld]
    simp
  have hfind2 : findTracker s2 u (toLoginDate now2) = some t :=
    find?_eq_some_of_unique _ _ (hinv.1 u (toLoginDate now2)) t hmem hpt
  unfold endDayHandler
  rw [hfind2]
  dsimp only
  rw [hde]

/-- Claim C4: once a first successful end-day call has set dayEndTime, a
same-day second call changes nothing: it answers the already-ended
ConflictError carrying the stored end time and the formatted working hours,
and leaves the store exactly as it was. -/
theorem C4_endDay_idempotent (s : TrackerStore) (hs : TrackerReachable s)
    (u : Nat) (notes loc : Option String) (now : Millis) (t : Tracker)
    (w : String) (s2 : TrackerStore)
    (hfirst : endDayHandler s u notes loc now = (.ended t w, s2))
    (notes2 loc2 : Option String) (now2 : Millis)
    (hday : toLoginDate now2 = toLoginDate now) :
    t.dayEndTime = some now ∧
    endDayHandler s2 u notes2 loc2 now2 =
      (.alreadyEnded now t.getWorkingHoursFormatted, s2) := by
  have hs2 : TrackerReachable s2 := by
    have h2 := TrackerReachable.step hs (TrackerStep.endDay s u notes loc now)
    rw [hfirst] at h2
    exact h2
  have hinv := trackerInv_of_reachable hs
  have hinv2 := trackerInv_of_reachable hs2
  unfold endDayHandler at hfirst
  cases hf : findTracker s u (toLoginDate now) with
  | none =>
    rw [hf] at hfirst
    dsimp only at hfirst
    exact EndDayResult.noConfusion (congrArg Prod.fst hfirst)
  | some t0 =>
    rw [hf] at hfirst
    dsimp only at hfirst
    have hmem0 : t0 ∈ s.trackers := List.mem_of_find?_eq_some hf
    have hpred : isTrackerFor u (toLoginDate now) t0 = true :=
      List.find?_some hf
    have hu0 : t0.userId = u := by
      unfold isTrackerFor at hpred
      simp only [Bool.and_eq_true] at hpred
      simpa using hpred.1
    have hld0 : t0.loginDate = toLoginDate now := by
      unfold isTrackerFor at hpred
      simp only [Bool.and_eq_true] at hpred
      simpa using hpred.2
    cases hde : t0.dayEndTime with
    | some de =>
      rw [hde] at hfirst
      dsimp only at hfirst
      exact EndDayResult.noConfusion (congrArg Prod.fst hfirst)
    | none =>
      rw [hde] at hfirst
      dsimp only at hfirst
      have hrep1 := trackerReplace_facts s t0 (t0.endDay now notes) hmem0
        hinv.2.1 (endDay_fields t0 now notes).1 (endDay_fields t0 now notes).2.1
        (endDay_fields t0 now notes).2.2.1
      cases loc with
      | none =>
        injection hfirst with h1 h2
        injection h1 with ht hw
        subst ht
        subst h2
        have hdet : (t0.endDay now notes).dayEndTime = some now :=
          (endDay_fields t0 now notes).2.2.2
        refine ⟨hdet, ?_⟩
        refine endDay_already _ hinv2 u notes2 loc2 now2 _ now hrep1.2.2.1 ?_ ?_ hdet
        · rw [(endDay_fields t0 now notes).2.1]
          exact hu0
        · rw [(endDay_fields t0 now notes).2.2.1, hday]
          exact hld0
      | some l =>
        dsimp only at hfirst
        by_cases hl : l = ""
        · rw [if_pos hl] at hfirst
          injection hfirst with h1 h2
          injection h1 with ht hw
          subst ht
          subst h2
          have hdet : (t0.endDay now notes).dayEndTime = some now :=
            (endDay_fields t0 now notes).2.2.2
          refine ⟨hdet, ?_⟩
          refine endDay_already _ hinv2 u notes2 loc2 now2 _ now hrep1.2.2.1
            ?_ ?_ hdet
          · rw [(endDay_fields t0 now notes).2.1]
            exact hu0
          · rw [(endDay_fields t0 now notes).2.2.1, hday]
            exact hld0
        · rw [if_neg hl] at hfirst
          injection hfirst with h1 h2
          injection h1 with ht hw
          subst ht
          subst h2
          have hdet : (trackerBeforeSave
              { t0.endDay now notes with location := some l }).dayEndTime =
              some now := by
            rw [(trackerBeforeSave_fields _).2.2.2.2]
            show (t0.endDay now notes).dayEndTime = some now
            exact (endDay_fields t0 now notes).2.2.2
          refine ⟨hdet, ?_⟩
          have hrep2 := trackerReplace_facts (replaceTracker s (t0.endDay now notes))
            (t0.endDay now notes)
            (trackerBeforeSave { t0.endDay now notes with location := some l })
            hrep1.2.2.1 (by rw [hrep1.1]; exact hinv.2.1)
            (trackerBeforeSave_fields _).1
            (trackerBeforeSave_fields _).2.1
            (trackerBeforeSave_fields _).2.2.1
          refine endDay_already _ hinv2 u notes2 loc2 now2 _ now hrep2.2.2.1
            ?_ ?_ hdet
          · rw [(trackerBeforeSave_fields _).2.1]
            show (t0.endDay now notes).userId = u
            rw [(endDay_fields t0 now notes).2.1]
            exact hu0
          · rw [(trackerBeforeSave_fields _).2.2.1, hday]
            show (t0.endDay now notes).loginDate = toLoginDate now
            rw [(endDay_fields t0 now notes).2.2.1]
            exact hld0

lemma incLoginAttempts_no_lock (cfg : SecurityConfig) (u : AuthUser)
    (now : Millis) (h : u.lockUntil = none) :
    incLoginAttempts cfg u now =
      if cfg.maxLoginAttempts ≤ u.loginAttempts + 1 then
        { u with loginAttempts := u.loginAttempts + 1,
                 lockUntil := some (now + cfg.lockoutTime) }
      else { u with loginAttempts := u.loginAttempts + 1 } := by
  unfold incLoginAttempts isLocked
  rw [h]
  by_cases hth : cfg.maxLoginAttempts ≤ u.loginAttempts + 1
  · rw [if_neg (by simp), if_pos (by simp [hth]), if_pos hth]
  · rw [if_neg (by simp), if_neg (by simp [hth]), if_neg hth]

lemma incLoginAttempts_expired (cfg : SecurityConfig) (u : AuthUser)
    (now lu : Millis) (h : u.lockUntil = some lu) (hlt : lu < now) :
    incLoginAttempts cfg u now =
      { u with loginAttempts := 1, lockUntil := none } := by
  unfold incLoginAttempts
  rw [h]
  rw [if_pos (by simp [hlt])]

lemma login_wrong_password (cfg : SecurityConfig) (s : AuthState)
    (email password : String) (ip ua loc : Option String) (now : Millis)
    (u : AuthUser) (hu : s.users.find? (fun x => x.email == email) = some u)
    (hnl : isLocked u now = false) (hia : u.isActive = true)
    (hpw : password ≠ u.password) :
    login cfg s email password ip ua loc now =
      (.invalidCredentials (some (max 0 (cfg.maxLoginAttempts -
          ((incLoginAttempts cfg u now).loginAttempts + 1)))),
       { s with users := replaceUser s.users (incLoginAttempts cfg u now) }) := by
  unfold login
  rw [hu]
  dsimp only
  rw [if_neg (by simp [hnl]), if_neg (by simp [hia]), if_pos hpw]

/-- Claim C8 counterexample: with the default config (threshold 5, lockout
30 minutes), five wrong-password logins at t = 0 leave the account at
loginAttempts = 5 with lockUntil = 1800000; the next wrong-password login at
t = 1800001 (lock expired) RESETS loginAttempts to 1 instead of incrementing
it to 6, refuting "on every failed login with a wrong password, loginAttempts
is incremented". -/
theorem C8_counterexample :
    (demoAuthState5.users.map (fun x => (x.loginAttempts, x.lockUntil)) =
      [((5 : Int), some (1800000 : Int))]) ∧
    ((failedLoginAt demoAuthState5 1800001).users.map
      (fun x => x.loginAttempts) = [(1 : Int)]) ∧
    (1 : Int) ≠ 5 + 1 := by
  decide

/-- Claim C8 (amended): while lockUntil > now the login fails with the 423
LockedError reporting ceil of the remaining minutes; on a wrong password with
no stored lock, loginAttempts increments and lockUntil is set to
now + lockoutTime exactly when the incremented count reaches the threshold;
but when a stored lock has expired (lockUntil < now), a wrong password resets
loginAttempts to 1 and clears the lock instead of incrementing. -/
theorem C8_lockout_behavior (cfg : SecurityConfig) (s : AuthState)
    (email password : String) (ip ua loc : Option String) (now : Millis)
    (u : AuthUser) (hu : s.users.find? (fun x => x.email == email) = some u) :
    (∀ lu, u.lockUntil = some lu → now < lu →
      login cfg s email password ip ua loc now =
        (.locked (jsCeilDiv (lu - now) 60000), s)) ∧
    (u.lockUntil = none → u.isActive = true → password ≠ u.password →
      login cfg s email password ip ua loc now =
        (.invalidCredentials
          (some (max 0 (cfg.maxLoginAttempts - (u.loginAttempts + 1 + 1)))),
         { s with
           users := replaceUser s.users
                      (if cfg.maxLoginAttempts ≤ u.loginAttempts + 1 then
                        { u with
                          loginAttempts := u.loginAttempts + 1,
                          lockUntil := some (now + cfg.lockoutTime) }
                      else { u with loginAttempts := u.loginAttempts + 1 }) })) ∧
    (∀ lu, u.lockUntil = some lu → lu < now → u.isActive = true →
      password ≠ u.password →
      login cfg s email password ip ua loc now =
        (.invalidCredentials (some (max 0 (cfg.maxLoginAttempts - (1 + 1)))),
         { s with
           users := replaceUser s.users
                      { u with loginAttempts := 1, lockUntil := none } })) := by
  refine ⟨?_, ?_, ?_⟩
  · intro lu hlu hlt
    unfold login
    rw [hu]
    dsimp only
    rw [if_pos (show isLocked u now = true by
      unfold isLocked; rw [hlu]; simp [hlt])]
    rw [hlu]
    rfl
  · intro hln hia hpw
    have hnl : isLocked u now = false := by
      unfold isLocked
      rw [hln]
    rw [login_wrong_password cfg s email password ip ua loc now u hu hnl hia hpw]
    rw [incLoginAttempts_no_lock cfg u now hln]
    by_cases hth : cfg.maxLoginAttempts ≤ u.loginAttempts + 1
    · rw [if_pos hth]
    · rw [if_neg hth]
  · intro lu hlu hexp hia hpw
    have hnl : isLocked u now = false := by
      unfold isLocked
      rw [hlu]
      dsimp only
      exact decide_eq_false (not_lt.mpr (le_of_lt hexp))
    rw [login_wrong_password cfg s email password ip ua loc now u hu hnl hia hpw]
    rw [incLoginAttempts_expired cfg u now lu hlu hexp]

/-- Claim C9 counterexample: with one registered user, a login with an
unknown email answers invalidCredentials carrying no attemptsRemaining,
while a login with the right email and a wrong password answers
invalidCredentials carrying attemptsRemaining = 3; the two responses differ,
so the two failure causes ARE distinguishable to the caller, refuting the
claimed indistinguishability. -/
theorem C9_counterexample :
    (login cfgDemo demoAuthState "nobody@example.com" "pw" none none none
      1000).1 = .invalidCredentials none ∧
    (login cfgDemo demoAuthState "ann@example.com" "wrong" none none none
      1000).1 = .invalidCredentials (some 3) ∧
    (.invalidCredentials none : LoginResult) ≠
      .invalidCredentials (some 3) := by
  decide

/-- Claim C9 (amended): unknown email and wrong password both answer status
401 with the identical generic message "Invalid email or password", but the
response bodies differ: the unknown-email response carries no
attemptsRemaining field while the wrong-password response carries one, so the
two causes remain distinguishable from the body. -/
theorem C9_generic_error (cfg : SecurityConfig) (s : AuthState)
    (email password : String) (ip ua loc : Option String) (now : Millis) :
    (s.users.find? (fun x => x.email == email) = none →
      (login cfg s email password ip ua loc now).1 = .invalidCredentials none) ∧
    (∀ u, s.users.find? (fun x => x.email == email) = some u →
      isLocked u now = false → u.isActive = true → password ≠ u.password →
      (login cfg s email password ip ua loc now).1 =
        .invalidCredentials (some (max 0 (cfg.maxLoginAttempts -
          ((incLoginAttempts cfg u now).loginAttempts + 1))))) ∧
    (∀ r, loginStatus (.invalidCredentials r) = 401 ∧
      loginMessage (.invalidCredentials r) = "Invalid email or password") := by
  refine ⟨?_, ?_, ?_⟩
  · intro hnone
    unfold login
    rw [hnone]
  · intro u hu hnl hia hpw
    rw [congrArg Prod.fst
      (login_wrong_password cfg s email password ip ua loc now u hu hnl hia hpw)]
  · intro r
    exact ⟨rfl, rfl⟩

lemma demoTimerStore1_reachable : TimerReachable demoTimerStore1 :=
  TimerReachable.step
    (TimerReachable.init [{ id := 1, name := "Website" }]
      [{ id := 2, name := "Development" }])
    (TimerStep.start demoTimerStore0 7 1 2 "Fix login page" none 1000)

lemma demoTimerStore2_reachable : TimerReachable demoTimerStore2 :=
  TimerReachable.step demoTimerStore1_reachable
    (TimerStep.stop demoTimerStore1 7 none 61000)

lemma demoTrackerStore1_reachable : TrackerReachable demoTrackerStore1 :=
  TrackerReachable.step TrackerReachable.init
    (TrackerStep.track demoTrackerStore0 3 1000 none none none)

lemma demoTrackerStore2_reachable : TrackerReachable demoTrackerStore2 :=
  TrackerReachable.step demoTrackerStore1_reachable
    (TrackerStep.endDay demoTrackerStore1 3 none none 3600000)

/-- Witness for C1 at a concrete reachable store: user 7 has one open entry,
and a second start answers the ConflictError naming the project "Website"
without writing. -/
theorem C1_witness :
    (openEntries demoTimerStore1 7).length ≤ 1 ∧
    (startHandler demoTimerStore1 7 1 2 "Second task" none 2000).2 =
      demoTimerStore1 ∧
    (startHandler demoTimerStore1 7 1 2 "Second task" none 2000).1 =
      .conflictActiveTimer
        ("You already have an active timer running for project: " ++ "Website")
        demoEntry1 := by
  have h := C1_one_active_timer demoTimerStore1 demoTimerStore1_reachable 7 1 2
    "Second task" none 2000
  have h2 := h.2.1 demoEntry1 (by decide)
  exact ⟨h.1, h2.1, h2.2 { id := 1, name := "Website" } (by decide)⟩

/-- Witness for C2 at a concrete reachable store: a same-day second login
returns the existing row unchanged with isFirstLogin = false. -/
theorem C2_witness :
    trackFirstLogin (trackFirstLogin demoTrackerStore1 3 5000 none none none).2
      3 9000 none none none =
    ({ isFirstLogin := false,
       tracker := (trackFirstLogin demoTrackerStore1 3 5000 none none none).1.tracker },
     (trackFirstLogin demoTrackerStore1 3 5000 none none none).2) :=
  (C2_tracker_unique demoTrackerStore1 demoTrackerStore1_reachable 3 0 5000 9000
    (by decide) none none none none none none).2.2

/-- Witness for C3 at a concrete reachable store: the stopped entry stores
floor(60000 ms / 60000) = 1 minute. -/
theorem C3_witness :
    demoEntry2 ∈ demoTimerStore2.entries ∧
    demoEntry2.durationMinutes = ((61000 : Int) - demoEntry2.startTime).fdiv 60000 :=
  ⟨by decide,
   C3_duration_floor demoTimerStore2 demoTimerStore2_reachable demoEntry2
     (by decide) 61000 (by decide)⟩

/-- Witness for C4 at a concrete reachable store: after ending the day at
t = 3600000, a second same-day end-day call reports the stored end time and
formatted hours and leaves the store unchanged. -/
theorem C4_witness :
    demoTrackerEnded.dayEndTime = some 3600000 ∧
    endDayHandler demoTrackerStore2 3 none none 7200000 =
      (.alreadyEnded 3600000 demoTrackerEnded.getWorkingHoursFormatted,
       demoTrackerStore2) :=
  C4_endDay_idempotent demoTrackerStore1 demoTrackerStore1_reachable 3 none none
    3600000 demoTrackerEnded "1h 0m" demoTrackerStore2 (by decide) none none
    7200000 (by decide)

/-- Witness for C5: a manual body with endTime 4000 < startTime 5000 is
rejected by validation with the store unchanged. -/
theorem C5_witness :
    createManualPipeline demoTimerStore0 7 demoManualBody =
      (.validationFailed, demoTimerStore0) :=
  (C5_manual_bad_range demoTimerStore0 7 demoManualBody (by decide)).1

/-- Witness for C6: updating or deleting the open entry of user 7 answers the
completed-only ConflictError with the store unchanged. -/
theorem C6_witness :
    updateEntryHandler demoTimerStore1 demoEntry1.id 7
      { taskName := some "New name", description := none, startTime := none,
        endTime := none } = (.onlyCompletedEditable, demoTimerStore1) ∧
    deleteEntryHandler demoTimerStore1 demoEntry1.id 7 =
      (.onlyCompletedDeletable, demoTimerStore1) :=
  C6_open_entry_guard demoTimerStore1 demoTimerStore1_reachable 7 demoEntry1
    (by decide) (by decide) (by decide)
    { taskName := some "New name", description := none, startTime := none,
      endTime := none }

/-- Witness for C7: stop for user 9 (no open entry) conflicts without a
write; stop for user 7 closes the open entry at t = 61000. -/
theorem C7_witness :
    stopHandler demoTimerStore1 9 none 5000 = (.noActiveTimer, demoTimerStore1) ∧
    ∃ e2, stopHandler demoTimerStore1 7 none 61000 =
        (.stopped demoEntry1.id 61000, replaceEntry demoTimerStore1 e2) ∧
      e2.id = demoEntry1.id ∧ e2.endTime = some 61000 ∧
      e2.durationMinutes = ((61000 : Int) - demoEntry1.startTime).fdiv 60000 :=
  ⟨(C7_stop demoTimerStore1 demoTimerStore1_reachable 9 none 5000).1 (by decide),
   (C7_stop demoTimerStore1 demoTimerStore1_reachable 7 none 61000).2 demoEntry1
     (by decide) (by decide)⟩

/-- Witness for the amended C8 at concrete inputs: the locked account answers
the 423 with ceil of the remaining minutes, and an expired lock plus a wrong
password resets the counter to 1 and clears the lock. -/
theorem C8_witness :
    login cfgDemo demoAuthState5 "ann@example.com" "pw" none none none 1000 =
      (.locked (jsCeilDiv ((1800000 : Int) - 1000) 60000), demoAuthState5) ∧
    login cfgDemo demoAuthState5 "ann@example.com" "wrong" none none none
        1800001 =
      (.invalidCredentials
        (some (max 0 (cfgDemo.maxLoginAttempts - (1 + 1)))),
       { demoAuthState5 with
         users := replaceUser demoAuthState5.users
                    { demoAuthUser5 with loginAttempts := 1,
                                         lockUntil := none } }) :=
  ⟨(C8_lockout_behavior cfgDemo demoAuthState5 "ann@example.com" "pw" none none
      none 1000 demoAuthUser5 (by decide)).1 1800000 (by decide) (by decide),
   (C8_lockout_behavior cfgDemo demoAuthState5 "ann@example.com" "wrong" none
      none none 1800001 demoAuthUser5 (by decide)).2.2 1800000 (by decide)
      (by decide) (by decide) (by decide)⟩

/-- Witness for the amended C9 at concrete inputs: unknown email answers the
bare generic 401; wrong password answers the same message with the extra
attemptsRemaining field. -/
theorem C9_witness :
    (login cfgDemo demoAuthState "nobody@example.com" "pw" none none none
      1000).1 = .invalidCredentials none ∧
    (login cfgDemo demoAuthState "ann@example.com" "wrong" none none none
      1000).1 = .invalidCredentials (some (max 0 (cfgDemo.maxLoginAttempts -
        ((incLoginAttempts cfgDemo demoAuthUser 1000).loginAttempts + 1)))) ∧
    loginStatus (.invalidCredentials none) = 401 ∧
    loginMessage (.invalidCredentials none) = "Invalid email or password" :=
  ⟨(C9_generic_error cfgDemo demoAuthState "nobody@example.com" "pw" none none
      none 1000).1 (by decide),
   (C9_generic_error cfgDemo demoAuthState "ann@example.com" "wrong" none none
      none 1000).2.1 demoAuthUser (by decide) (by decide) (by decide)
      (by decide),
   ((C9_generic_error cfgDemo demoAuthState "ann@example.com" "wrong" none none
      none 1000).2.2 none).1,
   ((C9_generic_error cfgDemo demoAuthState "ann@example.com" "wrong" none none
      none 1000).2.2 none).2⟩

/-- Witness for C10 at concrete reachable stores: the just-created row has
null totalWorkingHours; the ended row stores 100 centihours, and 0 ≤ 100. -/
theorem C10_witness :
    demoTracker1.totalWorkingHours = none ∧ (0 : Int) ≤ 100 :=
  ⟨(C10_working_hours demoTrackerStore1 demoTrackerStore1_reachable demoTracker1
      (by decide)).1 (by decide),
   (C10_working_hours demoTrackerStore2 demoTrackerStore2_reachable
      demoTrackerEnded (by decide)).2.1 100 (by decide)⟩

end SinProject
